import Mathlib

/-!
Verification of the TP4API movie-recommendation service.

The development shallowly embeds the Python sources:
- `src/app/services/recommendation_service.py` — the scoring-and-ranking loop
  (`get_recommendations`), built on `surprise` SVD point predictions;
- `src/backend/app/routers/recommender.py` — the aggregation endpoints
  (dataset info, per-user and per-item details, popular items, title search);
- `src/postgres/init/import_data.py` — the batch import (readiness wait loop,
  ratings insertion with ON CONFLICT DO NOTHING);
- `src/app/utils/data_loader.py` — movie metadata used by title search.

Floats are embedded as rationals (`ℚ`); the one NaN-producing operation
(`pandas` mean of an empty selection) is embedded as `Option ℚ` with `none`
for the empty case. A trained SVD model is abstracted by its deterministic
point-prediction function `(user_id, item_id) ↦ est`: at inference time the
library's `predict` is a pure arithmetic function of the fitted parameters.
-/

namespace TP4API

/-- Rating tuple of the MovieLens snapshot, mirroring the columns
`['user_id', 'item_id', 'rating', 'timestamp']` that every endpoint of
`recommender.py` builds its DataFrame from (`dataset.raw_ratings`). -/
structure Rating where
  user_id : Int
  item_id : Int
  rating : ℚ
  timestamp : Int
deriving DecidableEq, Repr

/-- Result object of `model.predict(user_id, movie_id)` in
`recommendation_service.py`: the scoring loop reads the `.est` field. -/
structure Prediction where
  uid : Int
  iid : Int
  est : ℚ
deriving DecidableEq, Repr

/-- Embedding of `model.predict(user_id, item_id)`: the trained model is
abstracted by its deterministic estimate function `model : Int → Int → ℚ`
(surprise SVD inference is pure arithmetic over the fitted parameters,
with a deterministic global-mean fallback for unseen users or items). -/
def predict (model : Int → Int → ℚ) (user_id item_id : Int) : Prediction :=
  ⟨user_id, item_id, model user_id item_id⟩

/-- The fixed item universe swept by the scoring loop:
`range(1, 1683)` in `recommendation_service.py` ("Les ID de films vont
de 1 à 1682 dans ml-100k"). -/
def itemUniverse : List Int :=
  (List.range 1682).map (fun k : Nat => (k : Int) + 1)

/-- Embedding of `get_recommendations(user_id, num_recommendations)` from
`src/app/services/recommendation_service.py`.  The Python body fetches a
dataset (`load_data()`) and builds a testset from it, but neither value is
ever consumed by the scoring loop; they appear here as the unused `dataset`
argument.  The loop scores every id of the fixed item universe via
`model.predict(...).est`, then `list.sort(key=..., reverse=True)` sorts
stably by predicted rating descending (CPython sorting is stable, also
under `reverse=True`), embedded as `insertionSort` with the total
transitive relation "left score ≥ right score" (Mathlib's `insertionSort`
is stable); finally the slice `[:num_recommendations]` is `take`. -/
def get_recommendations (model : Int → Int → ℚ) (dataset : List Rating)
    (user_id : Int) (num_recommendations : Nat) : List (Int × ℚ) :=
  ((itemUniverse.map
      (fun movie_id => (movie_id, (predict model user_id movie_id).est))).insertionSort
    (fun x y => y.2 ≤ x.2)).take num_recommendations

/-- Descending-by-score order refined by ascending first component on ties:
the order that a stable descending sort produces from an input whose first
components strictly increase. -/
abbrev lexDesc {α β : Type} [LT α] [LE β] (a b : α × β) : Prop :=
  b.2 ≤ a.2 ∧ (a.2 = b.2 → a.1 < b.1)

/-- Movie metadata row from `u.item` as loaded by
`src/app/utils/data_loader.py` (`movie_id` and `title` are the columns the
search endpoint uses); the title is embedded as its character list. -/
structure MovieMeta where
  movie_id : Int
  title : List Char
deriving DecidableEq, Repr

/-- The special (meta) characters of Python `re` patterns; every other
character in a pattern matches itself.  `pandas`
`Series.str.contains(query, case=False)` passes the query to `re` with its
default `regex=True`, so the search endpoint does not match these
characters literally. -/
def regexMetachars : List Char :=
  ['.', '^', '$', '*', '+', '?', '\x7b', '\x7d', '[', ']', '\\', '|', '(', ')']

/-- Patterns of the embedded regex fragment: literal (non-metacharacter)
characters plus the any-character metacharacter `.`.  Python `re`
semantics are modelled only on this fragment; a pattern using any other
metacharacter is left unmodelled rather than approximated. -/
def inFragment (pat : List Char) : Bool :=
  pat.all (fun c => (c == '.') || !(decide (c ∈ regexMetachars)))

/-- Single-character pattern step of Python `re` matching with
`re.IGNORECASE` on the embedded fragment: the metacharacter `.` matches
any character, a literal pattern character matches case-insensitively. -/
def charMatches (p c : Char) : Bool :=
  (p == '.') || (p.toLower == c.toLower)

/-- Fragment pattern `pat` matches a prefix of `s`. -/
def matchesAt : List Char → List Char → Bool
  | [], _ => true
  | _ :: _, [] => false
  | p :: ps, c :: cs => charMatches p c && matchesAt ps cs

/-- Fragment pattern matches at some position of `s` — the behaviour of
`re.search` on fragment patterns. -/
def fragmentSearch (pat : List Char) : List Char → Bool
  | [] => matchesAt pat []
  | c :: cs => matchesAt pat (c :: cs) || fragmentSearch pat cs

/-- Embedding of `re.search(pat, s, re.IGNORECASE)` as invoked by the
search endpoint: defined (`some`) exactly on patterns inside the modelled
fragment of literal characters and `.`; `none` marks patterns whose `re`
semantics (other metacharacters, invalid regexes) this development does
not model — they are never silently treated as literal characters. -/
def reSearch (pat s : List Char) : Option Bool :=
  if inFragment pat then some (fragmentSearch pat s) else none

/-- Case-insensitive literal prefix match (no metacharacters). -/
def litMatchesAt : List Char → List Char → Bool
  | [], _ => true
  | _ :: _, [] => false
  | p :: ps, c :: cs => (p.toLower == c.toLower) && litMatchesAt ps cs

/-- Case-insensitive literal substring containment: `q` occurs literally in
`s`, letter case ignored.  This follows the specification's words
("case-insensitive substring match"), for comparison with the code's
regex-based filter. -/
def litContains (q : List Char) : List Char → Bool
  | [] => litMatchesAt q []
  | c :: cs => litMatchesAt q (c :: cs) || litContains q cs

/-- Embedding of `search_movies(query)` from
`src/backend/app/routers/recommender.py`:
`movies_df[movies_df['title'].str.contains(query, case=False)]`.
`Series.str.contains` defaults to `regex=True`, so each title is tested
with `re.search(query, title, re.IGNORECASE)`.  The result is `some` of
the filtered rows for queries inside the modelled regex fragment and
`none` for queries outside it (whose endpoint behaviour — other
metacharacters, invalid regexes — is not modelled here). -/
def search_movies (movies : List MovieMeta) (query : List Char) :
    Option (List MovieMeta) :=
  if inFragment query then some (movies.filter (fun m => fragmentSearch query m.title))
  else none

/-- Search endpoint as the specification words it ("case-insensitive
substring match over title metadata", the query a literal substring).
Declared for comparison with the code-derived `search_movies`. -/
def searchMoviesLiteralSpec (movies : List MovieMeta) (query : List Char) : List MovieMeta :=
  movies.filter (fun m => litContains query m.title)

/-- Embedding of `user_details(user_id)` from `recommender.py`: filter the
ratings DataFrame on `user_id` and return the `(item_id, rating)` records. -/
def user_details (ds : List Rating) (user_id : Int) : Int × List (Int × ℚ) :=
  (user_id,
   (ds.filter (fun r => r.user_id == user_id)).map (fun r => (r.item_id, r.rating)))

/-- Embedding of `movie_details(movie_id)` from `recommender.py`: filter the
ratings DataFrame on `item_id`, return the mean rating and the count.
`pandas` mean of an empty selection is `NaN`, embedded as `none`. -/
def movie_details (ds : List Rating) (movie_id : Int) : Int × Option ℚ × Nat :=
  let movie_data := ds.filter (fun r => r.item_id == movie_id)
  (movie_id,
   if movie_data.length = 0 then none
   else some ((movie_data.map (fun r => r.rating)).sum / (movie_data.length : ℚ)),
   movie_data.length)

/-- Embedding of `dataset_info()` from `recommender.py`:
`df['user_id'].nunique()`, `df['item_id'].nunique()` (counts of distinct
values, embedded as `dedup.length`) and `len(df)` (every tuple counted,
duplicates included). -/
def dataset_info (ds : List Rating) : Nat × Nat × Nat :=
  ((ds.map (fun r => r.user_id)).dedup.length,
   (ds.map (fun r => r.item_id)).dedup.length,
   ds.length)

/-- Embedding of `popular_movies(num_movies)` from `recommender.py`:
`df.groupby('item_id')['rating'].count()` (group keys sorted ascending,
count of rows per item), then `sort_values(by='rating', ascending=False)`
and `head(num_movies)`.  `sort_values` leaves the order of tied counts
unspecified (default non-stable quicksort); the embedding fixes one
descending sort, and only order-independent properties are proved. -/
def popularity (ds : List Rating) : List (Int × Nat) :=
  (((ds.map (fun r => r.item_id)).dedup).insertionSort (fun a b => a ≤ b)).map
    (fun i => (i, (ds.map (fun r => r.item_id)).count i))

/-- Top slice of `popularity` sorted by count descending — the body of the
popular-items endpoint. -/
def popular_movies (ds : List Rating) (num_movies : Nat) : List (Int × Nat) :=
  ((popularity ds).insertionSort (fun a b => b.2 ≤ a.2)).take num_movies

/-- The three-rating scenario dataset of the specification:
ratings [(1,10,5.0), (1,20,1.0), (2,10,3.0)] (timestamps immaterial). -/
def exampleRatings : List Rating :=
  [⟨1, 10, 5, 0⟩, ⟨1, 20, 1, 0⟩, ⟨2, 10, 3, 0⟩]

/-- Ratings CSV row / `ratings` table row of
`src/postgres/init/import_data.py` and `models.py` (composite primary key
`(user_id, movie_id)`). -/
structure CsvRating where
  user_id : Int
  movie_id : Int
  rating : ℚ
  timestamp : Int
deriving DecidableEq, Repr

/-- Composite primary key of a ratings row. -/
def ratingKey (r : CsvRating) : Int × Int :=
  (r.user_id, r.movie_id)

/-- A row with the given composite key is present in the table. -/
def hasKey (table : List CsvRating) (u m : Int) : Bool :=
  table.any (fun r => r.user_id == u && r.movie_id == m)

/-- One row of `INSERT INTO ratings ... ON CONFLICT (user_id, movie_id)
DO NOTHING`: the row is appended unless its composite key is already
present, in which case the statement silently does nothing. -/
def insertOnConflictDoNothing (table : List CsvRating) (r : CsvRating) : List CsvRating :=
  if hasKey table r.user_id r.movie_id then table else table ++ [r]

/-- Embedding of `import_ratings` from `src/postgres/init/import_data.py`:
every CSV row is inserted with ON CONFLICT DO NOTHING semantics (the
batching in groups of 5000 does not change which rows land in the table),
and the function reports `len(ratings_df)` — the CSV row count — as the
number of imported ratings, regardless of skipped duplicates. -/
def import_ratings (table : List CsvRating) (csv : List CsvRating) : List CsvRating × Nat :=
  (csv.foldl insertOnConflictDoNothing table, csv.length)

/-- Duplicate-key witness row for the import scenario. -/
def dupRow : CsvRating := ⟨1, 10, 5, 0⟩

/-- Embedding of the `wait_for_postgres` loop of `import_data.py`
(`retries = 30`, `for i in range(retries)`, `time.sleep(2)` after each
failed attempt).  `connect i` tells whether the i-th connection attempt
succeeds.  The result records the index of the first successful attempt
(`none` when all fail, matching `return None`), the number of connection
attempts made, and the list of sleep durations performed, in seconds. -/
def waitLoop (connect : Nat → Bool) : Nat → Nat → Option Nat × Nat × List Nat
  | 0, _ => (none, 0, [])
  | fuel + 1, i =>
    if connect i then (some i, 1, [])
    else ((waitLoop connect fuel (i + 1)).1,
          (waitLoop connect fuel (i + 1)).2.1 + 1,
          2 :: (waitLoop connect fuel (i + 1)).2.2)

/-- `wait_for_postgres()`: 30 attempts starting at attempt 0. -/
def wait_for_postgres (connect : Nat → Bool) : Option Nat × Nat × List Nat :=
  waitLoop connect 30 0

/-- Exit behaviour of `main()` in `import_data.py` around the readiness
wait: `if not engine: sys.exit(1)`.  `some 1` is the non-zero exit after
exhaustion; `none` means the import continues. -/
def mainExitCode (connect : Nat → Bool) : Option Nat :=
  if (wait_for_postgres connect).1 = none then some 1 else none

/-- Inserting `a` into a `lexDesc`-pairwise list by "score ≥" keeps the list
`lexDesc`-pairwise, provided `a`'s first component is below every first
component of the list (as holds when a stable sort processes an input with
strictly increasing first components). -/
theorem pairwise_lexDesc_orderedInsert {α β : Type} [LinearOrder α] [LinearOrder β]
    (a : α × β) :
    ∀ l : List (α × β), l.Pairwise lexDesc → (∀ b ∈ l, a.1 < b.1) →
      (l.orderedInsert (fun x y => y.2 ≤ x.2) a).Pairwise lexDesc
  | [], _, _ => by simp
  | b :: t, hl, ha => by
    show ((b :: t).orderedInsert (fun x y => y.2 ≤ x.2) a).Pairwise lexDesc
    rw [List.orderedInsert]
    split_ifs with h
    · refine List.Pairwise.cons ?_ hl
      intro x hx
      rcases List.mem_cons.mp hx with rfl | hxt
      · exact ⟨h, fun _ => ha x (List.mem_cons_self x t)⟩
      · have hbx := (List.pairwise_cons.mp hl).1 x hxt
        exact ⟨le_trans hbx.1 h, fun _ => ha x (List.mem_cons_of_mem b hxt)⟩
    · have hab : a.2 < b.2 := not_le.mp h
      refine List.Pairwise.cons ?_
        (pairwise_lexDesc_orderedInsert a t (List.pairwise_cons.mp hl).2
          (fun c hc => ha c (List.mem_cons_of_mem b hc)))
      intro x hx
      rcases (List.mem_orderedInsert _).mp hx with rfl | hxt
      · exact ⟨le_of_lt hab, fun heq => absurd heq (ne_of_gt hab)⟩
      · exact (List.pairwise_cons.mp hl).1 x hxt

/-- Stability of the descending-by-score sort: sorting a list whose first
components strictly increase produces a list pairwise ordered by score
descending with ties in ascending first-component order. -/
theorem pairwise_lexDesc_insertionSort {α β : Type} [LinearOrder α] [LinearOrder β] :
    ∀ l : List (α × β), l.Pairwise (fun x y => x.1 < y.1) →
      (l.insertionSort (fun x y => y.2 ≤ x.2)).Pairwise lexDesc
  | [], _ => by simp
  | a :: t, hl => by
    show ((List.insertionSort (fun x y : α × β => y.2 ≤ x.2) t).orderedInsert
      (fun x y => y.2 ≤ x.2) a).Pairwise lexDesc
    have ht := List.pairwise_cons.mp hl
    exact pairwise_lexDesc_orderedInsert a _ (pairwise_lexDesc_insertionSort t ht.2)
      (fun b hb => ht.1 b ((List.perm_insertionSort _ t).mem_iff.mp hb))

/-- The pair list swept by the scoring loop has strictly increasing movie
ids: the loop enumerates `range(1, 1683)` in order. -/
theorem recs_pairwise_fst (model : Int → Int → ℚ) (u : Int) :
    (itemUniverse.map
      (fun movie_id => (movie_id, (predict model u movie_id).est))).Pairwise
      (fun x y : Int × ℚ => x.1 < y.1) := by
  have h0 : itemUniverse.Pairwise (fun a b : Int => a < b) := by
    unfold itemUniverse
    exact (List.pairwise_lt_range 1682).map _
      (fun a b hab => by show (a : Int) + 1 < (b : Int) + 1; omega)
  exact h0.map _ (fun a b hab => hab)

/-- The item universe swept by the scoring loop has 1682 entries. -/
theorem itemUniverse_length : itemUniverse.length = 1682 := by
  unfold itemUniverse
  rw [List.length_map, List.length_range]

/-- C1: for every trained model and every user id, the list returned by
`get_recommendations` is sorted by predicted rating in descending order
(any earlier entry's score is ≥ any later entry's score, in particular for
adjacent entries), and entries with equal predicted rating appear in
ascending movie-id order, i.e. in the original enumeration order of the
item sweep. -/
theorem get_recommendations_sorted_stable (model : Int → Int → ℚ) (ds : List Rating)
    (u : Int) (n : Nat) :
    (get_recommendations model ds u n).Pairwise
      (fun a b : Int × ℚ => b.2 ≤ a.2 ∧ (a.2 = b.2 → a.1 < b.1)) := by
  unfold get_recommendations
  exact (pairwise_lexDesc_insertionSort _ (recs_pairwise_fst model u)).sublist
    (List.take_sublist n _)

/-- C2: for every trained model and every requested count, the output of
`get_recommendations` has exactly `min num_recommendations M` entries,
where `M = 1682` is the size of the fixed item universe (movie ids 1
through 1682); when the universe is smaller than the requested count, the
fewer entries are returned without error (the function is total). -/
theorem get_recommendations_length (model : Int → Int → ℚ) (ds : List Rating)
    (u : Int) (n : Nat) :
    (get_recommendations model ds u n).length = min n itemUniverse.length ∧
    itemUniverse.length = 1682 := by
  constructor
  · unfold get_recommendations
    rw [List.length_take, List.length_insertionSort, List.length_map]
  · exact itemUniverse_length

/-- C3: against one fixed trained model, prediction is deterministic — two
calls of `predict` with the identical `(user_id, item_id)` pair return the
same `Prediction` (hence the same `est`), and two calls of
`get_recommendations` with identical arguments and identical model state
return identical ordered output.  In this embedding the model is a pure
function of the fitted parameters (SVD inference draws no randomness), so
determinism holds definitionally. -/
theorem predict_and_recommendations_deterministic (model : Int → Int → ℚ)
    (ds : List Rating) (u i : Int) (n : Nat) :
    predict model u i = predict model u i ∧
    (predict model u i).est = (predict model u i).est ∧
    get_recommendations model ds u n = get_recommendations model ds u n :=
  ⟨rfl, rfl, rfl⟩

/-- C10: the output of `get_recommendations` does not depend on the rating
dataset fetched during the call — the dataset downloaded (`load_data()`)
and the testset built from it are never consumed by the scoring loop — so
running it against any two rating snapshots with the same model state and
arguments yields identical output: the scores are a function of the model
state and the `(user_id, movie_id)` arguments only. -/
theorem get_recommendations_dataset_independent (model : Int → Int → ℚ)
    (u : Int) (n : Nat) (ds₁ ds₂ : List Rating) :
    get_recommendations model ds₁ u n = get_recommendations model ds₂ u n :=
  rfl

/-- On patterns free of the `.` metacharacter, a regex prefix match is a
case-insensitive literal prefix match. -/
theorem matchesAt_eq_lit : ∀ q : List Char, ('.') ∉ q →
    ∀ s, matchesAt q s = litMatchesAt q s
  | [], _, s => by cases s <;> rfl
  | p :: ps, hq, s => by
    have hp : (p == '.') = false := by
      rw [beq_eq_false_iff_ne]
      intro hpe
      exact hq (hpe ▸ List.mem_cons_self p ps)
    have hps : ('.') ∉ ps := fun hm => hq (List.mem_cons_of_mem p hm)
    cases s with
    | nil => rfl
    | cons c cs =>
      simp only [matchesAt, litMatchesAt, charMatches, hp, Bool.false_or,
        matchesAt_eq_lit ps hps cs]

/-- On patterns free of the `.` metacharacter, the fragment search is
case-insensitive literal substring containment. -/
theorem fragmentSearch_eq_litContains (q : List Char) (hq : ('.') ∉ q) :
    ∀ s, fragmentSearch q s = litContains q s
  | [] => by simp only [fragmentSearch, litContains, matchesAt_eq_lit q hq]
  | c :: cs => by
    simp only [fragmentSearch, litContains, matchesAt_eq_lit q hq,
      fragmentSearch_eq_litContains q hq cs]

/-- C4 counterexample: the search endpoint does not treat the query as a
literal substring.  Against a table holding the single title "AB", the
query "." — a pattern inside the modelled regex fragment, which the title
does not contain as a substring in any letter case — matches: `pandas`
`str.contains` defaults to `regex=True`, so `.` is the any-character
metacharacter.  The code-derived filter and the specification's
literal-substring filter disagree on this input. -/
theorem search_movies_ne_literal :
    search_movies [⟨1, ['A', 'B']⟩] ['.'] ≠
      some (searchMoviesLiteralSpec [⟨1, ['A', 'B']⟩] ['.']) := by decide

/-- C4 amended: the search endpoint filters titles with the query
interpreted as a case-insensitive regular expression (the `pandas`
`str.contains` default), not as a literal substring; for every query
string free of Python regex metacharacters (`. ^ $ * + ? { } [ ] \ | ( )`)
the result coincides with case-insensitive literal substring matching.
Such queries lie inside the modelled fragment, where `re.search` over a
purely literal pattern is exactly case-insensitive substring search. -/
theorem search_movies_eq_literal_of_no_metachar (movies : List MovieMeta)
    (query : List Char) (h : ∀ c ∈ query, c ∉ regexMetachars) :
    search_movies movies query = some (searchMoviesLiteralSpec movies query) := by
  have hdot : ('.') ∉ query := fun hm =>
    absurd (by decide : ('.') ∈ regexMetachars) (h '.' hm)
  have hfrag : inFragment query = true := by
    simp only [inFragment, List.all_eq_true, Bool.or_eq_true, Bool.not_eq_true',
      decide_eq_false_iff_not]
    intro c hc
    exact Or.inr (h c hc)
  unfold search_movies searchMoviesLiteralSpec
  rw [if_pos hfrag]
  exact congrArg some
    (List.filter_congr (fun m _ => fragmentSearch_eq_litContains query hdot m.title))

/-- Witness for the amended C4 theorem at a concrete metacharacter-free
query: searching "a" over the single title "AB" agrees with literal
case-insensitive substring matching. -/
theorem search_movies_eq_literal_witness :
    search_movies [⟨1, ['A', 'B']⟩] ['a'] =
      some (searchMoviesLiteralSpec [⟨1, ['A', 'B']⟩] ['a']) :=
  search_movies_eq_literal_of_no_metachar [⟨1, ['A', 'B']⟩] ['a'] (by decide)

/-- C5: for every user id absent from the rating snapshot, the per-user
details query returns an empty `rated_movies` list rather than an error,
and for every item id absent from the snapshot, the per-item details query
returns a well-formed empty result — `num_ratings = 0` and no mean (the
`pandas` mean of an empty selection, `NaN`, embedded as `none`) — rather
than a distinct not-found error: both embeddings are total functions and
neither raises. -/
theorem details_absent_empty (ds : List Rating) (u m : Int) :
    (u ∉ ds.map (fun r => r.user_id) → (user_details ds u).2 = []) ∧
    (m ∉ ds.map (fun r => r.item_id) →
      (movie_details ds m).2.2 = 0 ∧ (movie_details ds m).2.1 = none) := by
  constructor
  · intro hu
    have hf : ds.filter (fun r => r.user_id == u) = [] :=
      List.filter_eq_nil_iff.mpr (fun r hr => by
        simp only [beq_iff_eq]
        intro heq
        exact hu (heq ▸ List.mem_map_of_mem _ hr))
    simp [user_details, hf]
  · intro hm
    have hf : ds.filter (fun r => r.item_id == m) = [] :=
      List.filter_eq_nil_iff.mpr (fun r hr => by
        simp only [beq_iff_eq]
        intro heq
        exact hm (heq ▸ List.mem_map_of_mem _ hr))
    constructor
    · simp [movie_details, hf]
    · simp [movie_details, hf]

/-- Witness for C5 on the empty snapshot: user 1 and item 2 are absent,
the user query yields an empty rating list and the item query yields a
zero count. -/
theorem details_absent_empty_witness :
    (user_details [] 1).2 = [] ∧ (movie_details [] 2).2.2 = 0 :=
  ⟨(details_absent_empty [] 1 2).1 (by simp),
   ((details_absent_empty [] 1 2).2 (by simp)).1⟩

/-- Key membership read off `hasKey`: a row with key `(u, m)` is in the
table iff `(u, m)` occurs among the table's keys. -/
theorem hasKey_iff_mem (t : List CsvRating) (u m : Int) :
    hasKey t u m = true ↔ (u, m) ∈ t.map ratingKey := by
  simp only [hasKey, List.any_eq_true, Bool.and_eq_true, beq_iff_eq, List.mem_map,
    ratingKey, Prod.mk.injEq]

/-- Conflict-skipping insertion never removes a key. -/
theorem hasKey_insert_mono (t : List CsvRating) (r : CsvRating) (u m : Int)
    (h : hasKey t u m = true) :
    hasKey (insertOnConflictDoNothing t r) u m = true := by
  unfold insertOnConflictDoNothing
  split_ifs
  · exact h
  · unfold hasKey
    rw [List.any_append]
    unfold hasKey at h
    rw [h]
    rfl

/-- After a conflict-skipping insertion of `r`, the key of `r` is present
(either it already was, or `r` was appended). -/
theorem hasKey_insert_self (t : List CsvRating) (r : CsvRating) :
    hasKey (insertOnConflictDoNothing t r) r.user_id r.movie_id = true := by
  unfold insertOnConflictDoNothing
  split_ifs with hc
  · exact hc
  · unfold hasKey
    rw [List.any_append]
    simp [hasKey]

/-- Keys present in the table stay present through the whole import fold. -/
theorem hasKey_foldl_mono : ∀ (csv t : List CsvRating) (u m : Int),
    hasKey t u m = true →
    hasKey (csv.foldl insertOnConflictDoNothing t) u m = true
  | [], _, _, _, h => h
  | r :: rs, t, u, m, h =>
    hasKey_foldl_mono rs (insertOnConflictDoNothing t r) u m
      (hasKey_insert_mono t r u m h)

/-- Every CSV row's key is present after the import fold. -/
theorem hasKey_foldl_of_mem : ∀ (csv t : List CsvRating) (r : CsvRating),
    r ∈ csv →
    hasKey (csv.foldl insertOnConflictDoNothing t) r.user_id r.movie_id = true
  | r' :: rs, t, r, hm => by
    rcases List.mem_cons.mp hm with rfl | hm'
    · exact hasKey_foldl_mono rs (insertOnConflictDoNothing t r) r.user_id r.movie_id
        (hasKey_insert_self t r)
    · exact hasKey_foldl_of_mem rs (insertOnConflictDoNothing t r') r hm'

/-- A conflict-skipping insertion only ever appends. -/
theorem insert_append (t : List CsvRating) (r : CsvRating) :
    ∃ s, insertOnConflictDoNothing t r = t ++ s := by
  unfold insertOnConflictDoNothing
  split_ifs
  · exact ⟨[], (List.append_nil t).symm⟩
  · exact ⟨[r], rfl⟩

/-- The import fold only appends rows: the initial table is an unchanged
prefix of the final table (skipped duplicates overwrite nothing). -/
theorem foldl_insert_append : ∀ (csv t : List CsvRating),
    ∃ s, csv.foldl insertOnConflictDoNothing t = t ++ s
  | [], t => ⟨[], (List.append_nil t).symm⟩
  | r :: rs, t => by
    obtain ⟨s₁, h₁⟩ := insert_append t r
    obtain ⟨s₂, h₂⟩ := foldl_insert_append rs (insertOnConflictDoNothing t r)
    refine ⟨s₁ ++ s₂, ?_⟩
    calc (r :: rs).foldl insertOnConflictDoNothing t
        = rs.foldl insertOnConflictDoNothing (insertOnConflictDoNothing t r) := rfl
      _ = insertOnConflictDoNothing t r ++ s₂ := h₂
      _ = (t ++ s₁) ++ s₂ := by rw [h₁]
      _ = t ++ (s₁ ++ s₂) := List.append_assoc t s₁ s₂

/-- A conflict-skipping insertion preserves distinctness of the composite
keys: a row is only appended when its key is absent. -/
theorem insert_nodup_keys (t : List CsvRating) (r : CsvRating)
    (h : (t.map ratingKey).Nodup) :
    ((insertOnConflictDoNothing t r).map ratingKey).Nodup := by
  unfold insertOnConflictDoNothing
  split_ifs with hc
  · exact h
  · rw [List.map_append]
    have hk : (r.user_id, r.movie_id) ∉ t.map ratingKey := fun hmem =>
      hc ((hasKey_iff_mem t r.user_id r.movie_id).mpr hmem)
    simp [List.nodup_append, h, ratingKey, hk]

/-- The whole import fold preserves distinctness of composite keys. -/
theorem foldl_nodup_keys : ∀ (csv t : List CsvRating),
    (t.map ratingKey).Nodup →
    ((csv.foldl insertOnConflictDoNothing t).map ratingKey).Nodup
  | [], _, h => h
  | r :: rs, t, h =>
    foldl_nodup_keys rs (insertOnConflictDoNothing t r) (insert_nodup_keys t r h)

/-- C6: during batch import, any ratings CSV row whose composite
`(user_id, movie_id)` key duplicates an already-inserted row is silently
skipped — no error is raised (the import is a total function), previously
inserted rows are untouched (the initial table is a prefix of the final
one) and key-distinctness is preserved — while the remaining rows are
still inserted (every CSV row's key is present afterwards); and the row
count reported on success equals the CSV row count regardless of how many
duplicates were skipped. -/
theorem import_ratings_skips_duplicates (table csv : List CsvRating) :
    (import_ratings table csv).2 = csv.length ∧
    (∀ r ∈ csv, hasKey (import_ratings table csv).1 r.user_id r.movie_id = true) ∧
    (∃ s, (import_ratings table csv).1 = table ++ s) ∧
    ((table.map ratingKey).Nodup → ((import_ratings table csv).1.map ratingKey).Nodup) :=
  ⟨rfl, fun r hr => hasKey_foldl_of_mem csv table r hr,
   foldl_insert_append csv table, fun h => foldl_nodup_keys csv table h⟩

/-- Witness for C6 on a CSV that repeats one row: the reported count is
the CSV row count 2, the key is present once, and the final table has
distinct keys — the duplicate was skipped, not re-inserted. -/
theorem import_ratings_skips_duplicates_witness :
    (import_ratings [] [dupRow, dupRow]).2 = 2 ∧
    hasKey (import_ratings [] [dupRow, dupRow]).1 1 10 = true ∧
    ((import_ratings [] [dupRow, dupRow]).1.map ratingKey).Nodup := by
  obtain ⟨h1, h2, _, h4⟩ := import_ratings_skips_duplicates [] [dupRow, dupRow]
  exact ⟨h1, h2 dupRow (List.mem_cons_self dupRow [dupRow]), h4 List.nodup_nil⟩

/-- Behaviour of the bounded wait loop: at most `fuel` connection attempts
are made, every sleep lasts 2 seconds, and if every attempt in the window
fails the loop reports no connection. -/
theorem waitLoop_spec (connect : Nat → Bool) : ∀ (fuel i : Nat),
    (waitLoop connect fuel i).2.1 ≤ fuel ∧
    (∀ s ∈ (waitLoop connect fuel i).2.2, s = 2) ∧
    ((∀ j, i ≤ j → j < i + fuel → connect j = false) →
      (waitLoop connect fuel i).1 = none)
  | 0, i => ⟨Nat.le_refl 0, by simp [waitLoop], fun _ => rfl⟩
  | fuel + 1, i => by
    obtain ⟨ih1, ih2, ih3⟩ := waitLoop_spec connect fuel (i + 1)
    unfold waitLoop
    cases hc : connect i with
    | true =>
      refine ⟨by simp, by simp, fun h => ?_⟩
      exact absurd (h i (Nat.le_refl i) (by omega)) (by simp [hc])
    | false =>
      refine ⟨by simpa using ih1, ?_, fun h => ?_⟩
      · intro s hs
        rcases List.mem_cons.mp hs with rfl | hs'
        · rfl
        · exact ih2 s hs'
      · exact ih3 (fun j hj1 hj2 => h j (by omega) (by omega))

/-- C7: the database-readiness wait loop makes a bounded number of
connection attempts (30) with a fixed 2-second sleep after each failed
attempt — no exponential backoff, no jitter — and if every attempt fails
it returns no engine and the import process exits with a non-zero status
(`sys.exit(1)`). -/
theorem wait_for_postgres_bounded (connect : Nat → Bool) :
    (wait_for_postgres connect).2.1 ≤ 30 ∧
    (∀ s ∈ (wait_for_postgres connect).2.2, s = 2) ∧
    ((∀ i, i < 30 → connect i = false) →
      (wait_for_postgres connect).1 = none ∧ mainExitCode connect = some 1) := by
  obtain ⟨h1, h2, h3⟩ := waitLoop_spec connect 30 0
  refine ⟨h1, h2, fun h => ?_⟩
  have hn : (wait_for_postgres connect).1 = none :=
    h3 (fun j _ hj2 => h j (by omega))
  exact ⟨hn, by simp [mainExitCode, hn]⟩

/-- Witness for C7 with a database that never comes up: no engine is
returned and the exit status is 1. -/
theorem wait_for_postgres_bounded_witness :
    (wait_for_postgres (fun _ => false)).1 = none ∧
    mainExitCode (fun _ => false) = some 1 :=
  (wait_for_postgres_bounded (fun _ => false)).2.2 (fun _ _ => rfl)

/-- C8: for every rating snapshot and every requested count, the
popular-items endpoint returns items sorted in descending order of rating
count, and every returned item's count is at least the count of every
grouped item left out of the returned slice (the returned items are the
most-rated ones; ties across the cut are resolved by the sort, whose tied
order the source leaves unspecified); in particular, over the dataset with
ratings [(1,10,5.0), (1,20,1.0), (2,10,3.0)], requesting the single most
popular item returns item 10 with its count 2, ahead of item 20 (rated
once). -/
theorem popular_movies_top_counts (ds : List Rating) (n : Nat) :
    (popular_movies ds n).Pairwise (fun a b => b.2 ≤ a.2) ∧
    (∀ x ∈ popular_movies ds n, ∀ y ∈ popularity ds,
      y ∉ popular_movies ds n → y.2 ≤ x.2) ∧
    popular_movies exampleRatings 1 = [(10, 2)] := by
  haveI : IsTotal (Int × Nat) (fun a b : Int × Nat => b.2 ≤ a.2) :=
    ⟨fun a b => le_total b.2 a.2⟩
  haveI : IsTrans (Int × Nat) (fun a b : Int × Nat => b.2 ≤ a.2) :=
    ⟨fun _ _ _ hab hbc => le_trans hbc hab⟩
  have hsorted : ((popularity ds).insertionSort (fun a b => b.2 ≤ a.2)).Pairwise
      (fun a b : Int × Nat => b.2 ≤ a.2) :=
    List.sorted_insertionSort _ (popularity ds)
  refine ⟨?_, ?_, by decide⟩
  · exact hsorted.sublist (List.take_sublist n _)
  · intro x hx y hy hyn
    have hysort : y ∈ (popularity ds).insertionSort (fun a b => b.2 ≤ a.2) :=
      (List.perm_insertionSort _ (popularity ds)).mem_iff.mpr hy
    have hsplit : ((popularity ds).insertionSort (fun a b => b.2 ≤ a.2)).take n ++
        ((popularity ds).insertionSort (fun a b => b.2 ≤ a.2)).drop n =
        (popularity ds).insertionSort (fun a b => b.2 ≤ a.2) :=
      List.take_append_drop n _
    have hpair : (((popularity ds).insertionSort (fun a b => b.2 ≤ a.2)).take n ++
        ((popularity ds).insertionSort (fun a b => b.2 ≤ a.2)).drop n).Pairwise
        (fun a b : Int × Nat => b.2 ≤ a.2) := by
      rw [hsplit]
      exact hsorted
    have hydrop : y ∈ ((popularity ds).insertionSort (fun a b => b.2 ≤ a.2)).drop n := by
      rcases List.mem_append.mp (hsplit ▸ hysort) with hyt | hyd
      · exact absurd hyt hyn
      · exact hyd
    exact (List.pairwise_append.mp hpair).2.2 x hx y hydrop

/-- Witness for C8 on the specification's scenario dataset: item 20
(grouped with count 1, left out of the top-1 slice) has a count no larger
than returned item 10's count 2. -/
theorem popular_movies_top_counts_witness : (1 : Nat) ≤ 2 :=
  (popular_movies_top_counts exampleRatings 1).2.1 (10, 2) (by decide)
    (20, 1) (by decide) (by decide)

/-- C9: the dataset-info endpoint returns the number of distinct user ids,
the number of distinct item ids, and the total number of rating tuples of
the full snapshot; the ratings count counts every tuple, including
duplicate `(user, item)` pairs, as the two-copies example shows. -/
theorem dataset_info_counts :
    (∀ ds : List Rating,
      (dataset_info ds).1 = (ds.map (fun r => r.user_id)).toFinset.card ∧
      (dataset_info ds).2.1 = (ds.map (fun r => r.item_id)).toFinset.card ∧
      (dataset_info ds).2.2 = ds.length) ∧
    dataset_info [⟨1, 10, 5, 0⟩, ⟨1, 10, 4, 1⟩] = (1, 1, 2) := by
  constructor
  · intro ds
    exact ⟨(List.card_toFinset _).symm, (List.card_toFinset _).symm, rfl⟩
  · decide

end TP4API
